import Mathlib

/-!
Shallow embedding of the filter/aggregate/reshape pipeline implemented by
`App.py` and `app.py` (24-hour movement behavior dashboard).

A pandas DataFrame row is modelled as a `Row` record; a DataFrame is a
`List Row`.  Missing values (NaN / null) are modelled as `none`; the numeric
`Minutes`, `Sampling_Rate_Hz` and `Data_Closure_24hr_Sum` columns are
`Option ℚ` (after the `pd.to_numeric(..., errors="coerce")` step, unparseable
entries are missing, hence `none`).
-/

namespace Dashboard

/-- One long-format observation row (one behavior duration for one study arm). -/
structure Row where
  studyID : String
  studyDisplay : String
  subgroup : Option String
  ageGroup : Option String
  behavior : String
  meanType : String
  minutes : Option ℚ
  deviceBrand : Option String
  deviceType : Option String
  country : Option String
  samplingRate : Option ℚ
  sleepMeas : Option String
  closureSum : Option ℚ
  deriving DecidableEq, Repr

/-- `Subgroup_clean` (App.py lines 49-53 and 77-81):
`df["Subgroup"].fillna("Full").replace({"": "Full", "full": "Full", "FULL": "Full", "NA": "Full"})`. -/
def Subgroup_clean : Option String → String
  | none => "Full"
  | some v => if v = "" ∨ v = "full" ∨ v = "FULL" ∨ v = "NA" then "Full" else v

/-- The fixed age-group ordering of App.py (lines 19-23): Unknown is excluded. -/
def ageCatsApp : List String := ["Children", "Adolescents", "Adult"]

/-- The fixed age-group ordering of app.py (lines 26-30): Unknown is a category. -/
def ageCatsLower : List String := ["Children", "Adolescents", "Adult", "Unknown"]

/-- App.py line 16: `df = df[df["Age_Group"].isin(["Children", "Adolescents", "Adult"])]`;
a null `Age_Group` is not in the list, so such rows are removed. -/
def dropUnknownAge (t : List Row) : List Row :=
  t.filter fun r => (r.ageGroup).any fun v => ageCatsApp.contains v

/-- app.py lines 26-30: `pd.Categorical(df["Age_Group"], categories=[...], ordered=True)`
maps a value outside the category list to null and leaves null as null. -/
def categoricalAge (g : Option String) : Option String :=
  match g with
  | some v => if ageCatsLower.contains v then some v else none
  | none => none

/-- The age-group column rewrite of app.py applied to the whole table. -/
def normalizeAgeLower (t : List Row) : List Row :=
  t.map fun r => { r with ageGroup := categoricalAge r.ageGroup }

/-- The row predicate of one sidebar filter: pandas `col.isin(sel)` is false on a
missing value (the selection lists are built from `dropna().unique()`, so they
never contain the missing marker), and an empty selection skips the filter
(`if age_filter: ...`, App.py lines 69-74, app.py lines 72-85). -/
def passes {α : Type} [DecidableEq α] (sel : List α) (get : Row → Option α) (r : Row) : Bool :=
  sel.isEmpty || (get r).any fun v => sel.contains v

/-- One `if sel: df_f = df_f[df_f[col].isin(sel)]` step
(App.py lines 69-74, app.py lines 72-85). -/
def applyFilter {α : Type} [DecidableEq α] (sel : List α) (get : Row → Option α)
    (t : List Row) : List Row :=
  if sel.isEmpty then t else t.filter fun r => (get r).any fun v => sel.contains v

/-- The available option list of one sidebar control: the distinct non-missing
values of the column (`sorted(df[column].dropna().unique())`, App.py line 33).
Order is irrelevant to the filters, so no sort is modelled. -/
def availableValues {α : Type} [DecidableEq α] (get : Row → Option α) (t : List Row) : List α :=
  (t.filterMap get).dedup

/-- Subgroup filtering mode (App.py lines 60-63). -/
inductive SubgroupMode where
  | fullOnly
  | allSubgroups
  | specific (chosen : List String)
  deriving DecidableEq, Repr

/-- App.py lines 84-95: the subgroup mode applied to the filtered table.  The
Boolean records whether `st.sidebar.warning` was called.  With mode
`specific []` the code only warns; `df_f` is left as it is. -/
def applySubgroupMode : SubgroupMode → List Row → List Row × Bool
  | .fullOnly, t => (t.filter fun r => Subgroup_clean r.subgroup == "Full", false)
  | .allSubgroups, t => (t, false)
  | .specific chosen, t =>
      if chosen.isEmpty then (t, true)
      else (t.filter fun r => chosen.contains (Subgroup_clean r.subgroup), false)

/-- Rows of one mean-type subset (`df_f[df_f["Mean_Type"] == "Arithmetic"]`). -/
def arithRows (t : List Row) : List Row :=
  t.filter fun r => r.meanType == "Arithmetic"

/-- Rows of the geometric subset (`df_f[df_f["Mean_Type"] == "Geometric"]`). -/
def geoRows (t : List Row) : List Row :=
  t.filter fun r => r.meanType == "Geometric"

/-- The non-missing `Minutes` values of one (age group, behavior) cell. -/
def nonMissingMinutes (t : List Row) (a b : String) : List ℚ :=
  (t.filter fun r => r.ageGroup == some a && r.behavior == b).filterMap (·.minutes)

/-- The pandas `SeriesGroupBy.mean` of one cell: NaN entries are skipped, and a
cell with no non-missing entry gets NaN (modelled `none`). -/
def groupMean (t : List Row) (a b : String) : Option ℚ :=
  let v := nonMissingMinutes t a b
  if v.isEmpty then none else some (v.sum / v.length)

/-- The values of the non-categorical `Behavior` group level: with
`observed=False` pandas reindexes over the product of the level lists, and the
levels of a non-categorical key come from factorizing the whole column — so
every behavior occurring anywhere in the subset is a level, including one that
occurs only in rows whose `Age_Group` is null (such rows form no group
themselves, but their behavior is still crossed with every age category,
yielding NaN means). -/
def observedBehaviors (t : List Row) : List String :=
  (t.map (·.behavior)).dedup

/-- `groupby(["Age_Group", "Behavior"], observed=False)["Minutes"].mean().reset_index()`
(App.py lines 114-119, app.py lines 108-116): with `observed=False` the result
is reindexed over the full product of the age categories with the observed
behavior values, so an empty cell is emitted with a NaN mean, not omitted. -/
def groupedMeans (cats : List String) (t : List Row) : List (String × String × Option ℚ) :=
  (cats ×ˢ observedBehaviors t).map fun p => (p.1, p.2, groupMean t p.1 p.2)

/-- `arith_means` of both files, parameterized by the file-specific category list. -/
def arith_means (cats : List String) (t : List Row) : List (String × String × Option ℚ) :=
  groupedMeans cats (arithRows t)

/-- `geo_means` of both files. -/
def geo_means (cats : List String) (t : List Row) : List (String × String × Option ℚ) :=
  groupedMeans cats (geoRows t)

/-- app.py line 124: `invalid_closure = df_f[df_f["Data_Closure_24hr_Sum"] != 1440]`.
In pandas `NaN != 1440` is `True`, so a missing closure sum lands here. -/
def invalid_closure (t : List Row) : List Row :=
  t.filter fun r => !(r.closureSum == some 1440)

/-- The complementary partition: rows whose closure sum equals 1440. -/
def valid_closure (t : List Row) : List Row :=
  t.filter fun r => r.closureSum == some 1440

/-- The closure check as a function of the filtered table: it produces the two
partitions and hands the table itself on unchanged (app.py lines 123-136 never
reassign `df_f`). -/
def closureCheck (t : List Row) : List Row × List Row × List Row :=
  (valid_closure t, invalid_closure t, t)

/-- The pivot index of app.py `make_wide` (lines 200-209): the eight key columns. -/
structure WideKey where
  studyID : String
  studyDisplay : String
  subgroup : Option String
  ageGroup : Option String
  country : Option String
  deviceBrand : Option String
  samplingRate : Option ℚ
  sleepMeas : Option String
  deriving DecidableEq, Repr

/-- The pivot key of a row. -/
def keyOf (r : Row) : WideKey :=
  ⟨r.studyID, r.studyDisplay, r.subgroup, r.ageGroup, r.country,
   r.deviceBrand, r.samplingRate, r.sleepMeas⟩

/-- True when none of the eight index columns is missing: `pivot_table` groups on
the index columns and silently drops a row with a null group key. -/
def keyComplete (r : Row) : Bool :=
  !(r.subgroup == none) && !(r.ageGroup == none) && !(r.country == none)
    && !(r.deviceBrand == none) && !(r.samplingRate == none) && !(r.sleepMeas == none)

/-- The rows of a mean-type subset that reach the pivot of `make_wide`
(app.py lines 193-209): `dropna(subset=["Minutes"])` removes missing-Minutes
rows, and the pivot drops rows with a null index key. -/
def pivotRows (t : List Row) : List Row :=
  t.filter fun r => !(r.minutes == none) && keyComplete r

/-- The distinct row keys of one wide table produced by `make_wide`. -/
def wideKeys (t : List Row) : List WideKey :=
  ((pivotRows t).map keyOf).dedup

/-- The behavior columns of one wide table: the behaviors observed among the
pivoted rows. -/
def wideCols (t : List Row) : List String :=
  ((pivotRows t).map (·.behavior)).dedup

/-- One cell of a wide table: the mean of the non-missing Minutes of the rows
with this key and behavior; NaN (`none`) when no such row exists. -/
def cellMean (t : List Row) (k : WideKey) (b : String) : Option ℚ :=
  let v := ((pivotRows t).filter fun r => keyOf r == k && r.behavior == b).filterMap (·.minutes)
  if v.isEmpty then none else some (v.sum / v.length)

/-- The key list of `pd.merge(..., how="outer")` on the shared key columns:
left keys in order, then the unmatched right keys. -/
def mergeOuterKeys (ka kg : List WideKey) : List WideKey :=
  ka ++ kg.filter fun k => !(ka.contains k)

/-- The schema-plus-keys abstraction of the merged study-level wide table:
which behavior columns exist for each mean type, and which key rows exist. -/
structure MergedWide where
  keys : List WideKey
  aCols : List String
  gCols : List String
  deriving DecidableEq, Repr

/-- app.py lines 222-238: build `wide_A`, `wide_G` and merge.  `make_wide`
returns an empty table when its subset is empty after the drops, and the merge
branch then keeps only the non-empty side, so the other side contributes no
columns at all. -/
def studyWide (arith geo : List Row) : MergedWide :=
  if !(pivotRows arith).isEmpty && !(pivotRows geo).isEmpty then
    { keys := mergeOuterKeys (wideKeys arith) (wideKeys geo),
      aCols := wideCols arith, gCols := wideCols geo }
  else if !(pivotRows arith).isEmpty then
    { keys := wideKeys arith, aCols := wideCols arith, gCols := [] }
  else
    { keys := wideKeys geo, aCols := [], gCols := wideCols geo }

/-- The behavior whitelist of the App.py wide table (line 315). -/
def behaviors4 : List String := ["Sleep", "SB", "LPA", "MVPA"]

/-- The distinct (StudyID, raw Subgroup) keys of one pivot of App.py lines
324-342: the index is the RAW `Subgroup` column, so a row with null `Subgroup`
is dropped by the pivot; a key whose Minutes are all missing yields an all-NaN
row removed by the dropna of `pivot_table`. -/
def wideAllKeys (mt : String) (t : List Row) : List (String × String) :=
  ((t.filter fun r => behaviors4.contains r.behavior && r.meanType == mt
      && !(r.subgroup == none) && !(r.minutes == none)).map
    fun r => (r.studyID, r.subgroup.getD "")).dedup

/-- Outer merge of two (StudyID, Subgroup) key lists. -/
def mergeOuterKeysP (ka kg : List (String × String)) : List (String × String) :=
  ka ++ kg.filter fun k => !(ka.contains k)

/-- The key rows of `wide_all` (App.py line 345): outer merge of the
arithmetic and geometric pivots on `["StudyID", "Subgroup"]`. -/
def wide_all_keys (t : List Row) : List (String × String) :=
  mergeOuterKeysP (wideAllKeys "Arithmetic" t) (wideAllKeys "Geometric" t)

/-- The five sidebar selections of app.py (lines 37-65). -/
structure Selection where
  age : List String
  brand : List String
  rate : List ℚ
  sleep : List String
  country : List String
  deriving DecidableEq, Repr

/-- app.py lines 70-85: the five `isin` filters applied in source order. -/
def df_f (t : List Row) (s : Selection) : List Row :=
  applyFilter s.country (fun r => r.country)
    (applyFilter s.sleep (fun r => r.sleepMeas)
      (applyFilter s.rate (fun r => r.samplingRate)
        (applyFilter s.brand (fun r => r.deviceBrand)
          (applyFilter s.age (fun r => r.ageGroup) t))))

/-- The tables the app.py pipeline hands to the presentation layer. -/
structure Outputs where
  filtered : List Row
  arithMeans : List (String × String × Option ℚ)
  geoMeans : List (String × String × Option ℚ)
  invalidClosure : List Row
  wide : MergedWide
  deriving DecidableEq, Repr

/-- The whole app.py pipeline (normalize, filter, aggregate, closure check,
reshape) as one function of the raw table and the filter selection. -/
def runPipeline (t : List Row) (s : Selection) : Outputs :=
  let f := df_f (normalizeAgeLower t) s
  { filtered := f
    arithMeans := groupedMeans ageCatsLower (arithRows f)
    geoMeans := groupedMeans ageCatsLower (geoRows f)
    invalidClosure := invalid_closure f
    wide := studyWide (arithRows f) (geoRows f) }

/-- A default observation row used to build concrete test tables. -/
def baseRow : Row :=
  { studyID := "S1", studyDisplay := "Study 1", subgroup := some "Full",
    ageGroup := some "Adult", behavior := "Sleep", meanType := "Arithmetic",
    minutes := some 480, deviceBrand := some "Axivity", deviceType := some "Wrist",
    country := some "Canada", samplingRate := some 100, sleepMeas := some "Yes",
    closureSum := some 1440 }

/-! ## Helper lemmas -/

/-- `Option.any` characterised through an existential. -/
theorem optAny_iff {α : Type} (o : Option α) (p : α → Bool) :
    o.any p = true ↔ ∃ a, o = some a ∧ p a = true := by
  cases o <;> simp [Option.any]

/-- `applyFilter` is the filter by `passes`, also when the selection is empty. -/
theorem applyFilter_eq_filter {α : Type} [DecidableEq α] (sel : List α)
    (get : Row → Option α) (t : List Row) :
    applyFilter sel get t = t.filter (passes sel get) := by
  by_cases h : sel.isEmpty
  · rw [applyFilter, if_pos h]
    exact (List.filter_eq_self.mpr fun a _ => by simp [passes, h]).symm
  · rw [applyFilter, if_neg h]
    exact List.filter_congr fun a _ => by simp [passes, h]

/-- Membership in a filtered table. -/
theorem mem_applyFilter {α : Type} [DecidableEq α] (sel : List α) (get : Row → Option α)
    (t : List Row) (r : Row) :
    r ∈ applyFilter sel get t ↔ r ∈ t ∧ passes sel get r = true := by
  rw [applyFilter_eq_filter]
  exact List.mem_filter

/-- Two list filters commute. -/
theorem filter_swap {p q : Row → Bool} (t : List Row) :
    (t.filter p).filter q = (t.filter q).filter p := by
  simp [List.filter_filter, Bool.and_comm]

/-! ## C1 -/

/-- A row whose device brand is missing: its brand is not among the available
option values of the Device Brand control. -/
def rowBrandNone : Row := { baseRow with studyID := "S2", deviceBrand := none }

/-- A two-row table on which selecting every available Device Brand value is
not neutral. -/
def tC1 : List Row := [baseRow, rowBrandNone]

/-- C1 counterexample: on `tC1` the selection `["Axivity"]` contains every
available Device Brand value, yet filtering with it drops the row whose brand
is missing, so the result differs from the unfiltered table; the claim that a
full selection always equals no filter at all is false. -/
theorem C1_counterexample :
    availableValues (fun r => r.deviceBrand) tC1 ⊆ ["Axivity"] ∧
    applyFilter ["Axivity"] (fun r => r.deviceBrand) tC1 ≠ tC1 := by
  constructor
  · intro a ha
    simpa [availableValues, tC1, baseRow, rowBrandNone] using ha
  · decide

/-- C1 (corrected): an empty selection is never treated as exclude-all — the
filter is skipped and the table is returned unchanged; and a selection
containing every available value of the dimension is neutral provided no row
has a missing value in that dimension (a row with a missing value is kept by
no-filter but dropped by any selection, since the option list is built with
`dropna()`). -/
theorem C1_filter_neutrality {α : Type} [DecidableEq α] (get : Row → Option α)
    (sel : List α) (t : List Row) :
    applyFilter [] get t = t ∧
    ((∀ r ∈ t, get r ≠ none) → availableValues get t ⊆ sel →
      applyFilter sel get t = t) := by
  constructor
  · simp [applyFilter]
  · intro hfull hsub
    rw [applyFilter_eq_filter, List.filter_eq_self]
    intro r hr
    rcases Option.ne_none_iff_exists'.mp (hfull r hr) with ⟨v, hv⟩
    have hmem : v ∈ availableValues get t := by
      simp only [availableValues, List.mem_dedup, List.mem_filterMap]
      exact ⟨r, hr, hv⟩
    have hsel := hsub hmem
    simp [passes, hv, hsel]

/-- Witness for C1 at a concrete input. -/
theorem C1_witness :
    applyFilter ["Axivity"] (fun r => r.deviceBrand) [baseRow] = [baseRow] :=
  (C1_filter_neutrality (fun r => r.deviceBrand) ["Axivity"] [baseRow]).2
    (by decide)
    (by intro a ha; simpa [availableValues, baseRow] using ha)

/-! ## C7 -/

/-- C7 (confirmed): the dimension filters commute, their sequential application
equals the joint conjunction filter, a single dimension filter keeps exactly
the rows of the table passing it, and — for a non-empty selection — a row
passes exactly when its value in that dimension is among the selected values
(OR within the dimension). -/
theorem C7_and_across_dimensions {α β : Type} [DecidableEq α] [DecidableEq β]
    (get1 : Row → Option α) (get2 : Row → Option β) (sel1 : List α) (sel2 : List β)
    (t : List Row) :
    applyFilter sel1 get1 (applyFilter sel2 get2 t)
        = applyFilter sel2 get2 (applyFilter sel1 get1 t) ∧
    applyFilter sel1 get1 (applyFilter sel2 get2 t)
        = t.filter (fun r => passes sel1 get1 r && passes sel2 get2 r) ∧
    (∀ r, r ∈ applyFilter sel1 get1 t ↔ r ∈ t ∧ passes sel1 get1 r = true) ∧
    (sel1 ≠ [] →
      ∀ r, passes sel1 get1 r = true ↔ ∃ v, get1 r = some v ∧ v ∈ sel1) := by
  refine ⟨?_, ?_, mem_applyFilter sel1 get1 t, ?_⟩
  · rw [applyFilter_eq_filter sel1, applyFilter_eq_filter sel2,
      applyFilter_eq_filter sel1, applyFilter_eq_filter sel2]
    exact filter_swap t
  · rw [applyFilter_eq_filter sel1, applyFilter_eq_filter sel2]
    simp [List.filter_filter, Bool.and_comm]
  · intro hne r
    have hempty : sel1.isEmpty = false := by
      simpa [List.isEmpty_iff] using hne
    simp [passes, hempty, optAny_iff]

/-- Witness for C7 at a concrete input. -/
theorem C7_witness :
    passes ["Axivity"] (fun r => r.deviceBrand) baseRow = true ↔
      ∃ v, baseRow.deviceBrand = some v ∧ v ∈ ["Axivity"] :=
  (C7_and_across_dimensions (fun r => r.deviceBrand) (fun r => r.country)
    ["Axivity"] ["Canada"] [baseRow]).2.2.2 (by decide) baseRow

/-! ## C2 -/

/-- A single arithmetic observation for (Children, Sleep). -/
def rowChildSleep : Row := { baseRow with ageGroup := some "Children" }

/-- The one-row table of the C2 counterexample. -/
def tC2 : List Row := [rowChildSleep]

/-- C2 counterexample: on `tC2` the (Adult, Sleep) pair has zero non-missing
contributing rows, yet the Arithmetic summary table emits it with a null mean
(`observed=False` reindexes over all age categories), so the claim that such a
pair is absent from the output is false. -/
theorem C2_counterexample :
    ("Adult", "Sleep", (none : Option ℚ)) ∈ arith_means ageCatsApp tC2 ∧
    nonMissingMinutes (arithRows tC2) "Adult" "Sleep" = [] := by
  constructor <;> decide

/-- C2 (corrected): each summary table has exactly one row per pair of an age
category (the full fixed ordering, because of `observed=False`) with a
behavior occurring anywhere in the subset column; a pair with at least one
non-missing Minutes value carries the arithmetic mean of exactly the
non-missing values (missing is never treated as zero), but a pair with zero
non-missing contributing rows — an unobserved combination, or one whose rows
are all missing — is emitted with a null mean, not omitted. -/
theorem C2_grouped_mean (cats : List String) (t : List Row) (hc : cats.Nodup) :
    (∀ a b m, (a, b, m) ∈ groupedMeans cats t ↔
        a ∈ cats ∧ b ∈ observedBehaviors t ∧ m = groupMean t a b) ∧
    ((groupedMeans cats t).map fun x => (x.1, x.2.1)).Nodup ∧
    (∀ a b μ, groupMean t a b = some μ →
        nonMissingMinutes t a b ≠ [] ∧
        μ * (nonMissingMinutes t a b).length = (nonMissingMinutes t a b).sum) ∧
    (∀ a b, nonMissingMinutes t a b = [] → groupMean t a b = none) := by
  refine ⟨?_, ?_, ?_, ?_⟩
  · intro a b m
    constructor
    · intro hm
      rcases List.mem_map.mp hm with ⟨p, hp, he⟩
      rcases p with ⟨x, y⟩
      rcases List.mem_product.mp hp with ⟨hx, hy⟩
      obtain ⟨rfl, rfl, rfl⟩ : x = a ∧ y = b ∧ groupMean t x y = m := by
        simpa [Prod.ext_iff] using he
      exact ⟨hx, hy, rfl⟩
    · rintro ⟨ha, hb, rfl⟩
      exact List.mem_map.mpr ⟨⟨a, b⟩, List.mem_product.mpr ⟨ha, hb⟩, rfl⟩
  · have hmap : ((groupedMeans cats t).map fun x => (x.1, x.2.1))
        = cats ×ˢ observedBehaviors t := by
      rw [groupedMeans, List.map_map]
      have hcomp : ((fun x : String × String × Option ℚ => (x.1, x.2.1)) ∘
          fun p : String × String => (p.1, p.2, groupMean t p.1 p.2)) = id := by
        funext p
        rfl
      rw [hcomp, List.map_id]
    rw [hmap]
    exact hc.product (List.nodup_dedup _)
  · intro a b μ hμ
    by_cases h : (nonMissingMinutes t a b).isEmpty
    · rw [groupMean] at hμ
      simp [h] at hμ
    · have hne : nonMissingMinutes t a b ≠ [] := by
        simpa [List.isEmpty_iff] using h
      refine ⟨hne, ?_⟩
      rw [groupMean] at hμ
      simp only [h, Bool.false_eq_true, if_false, Option.some.injEq] at hμ
      have hlen : ((nonMissingMinutes t a b).length : ℚ) ≠ 0 := by
        simpa [List.length_eq_zero] using hne
      rw [← hμ]
      field_simp
  · intro a b h
    rw [groupMean]
    simp [h]

/-- Witness for C2 at a concrete input: the pair with one non-missing value
appears with its mean. -/
theorem C2_witness :
    ("Children", "Sleep", some (480 : ℚ)) ∈ groupedMeans ageCatsApp tC2 :=
  ((C2_grouped_mean ageCatsApp tC2 (by decide)).1 "Children" "Sleep"
    (some 480)).mpr ⟨by decide, by decide,
      (by norm_num [groupMean, nonMissingMinutes, tC2, rowChildSleep, baseRow,
        List.filterMap_cons] :
          groupMean tC2 "Children" "Sleep" = some 480).symm⟩

/-! ## C3 -/

/-- C3 counterexample: under `Specific subgroups` with an empty chosen set the
code warns but leaves the table as it is, so the result is the whole non-empty
table — the claim that the result must be empty is false. -/
theorem C3_counterexample :
    (applySubgroupMode (.specific []) [baseRow]).1 = [baseRow] ∧
    ([baseRow] : List Row) ≠ [] ∧
    (applySubgroupMode (.specific []) [baseRow]).2 = true :=
  ⟨rfl, by decide, rfl⟩

/-- C3 (corrected): under `Specific subgroups` with an empty chosen set the
caller is warned, but the empty selection applies no constraint — the table is
returned unchanged, not emptied; with a non-empty chosen set the rows whose
normalized subgroup is among the chosen ones are kept and no warning issued. -/
theorem C3_specific_empty_warns (t : List Row) :
    (applySubgroupMode (.specific []) t).1 = t ∧
    (applySubgroupMode (.specific []) t).2 = true ∧
    (∀ chosen : List String, chosen ≠ [] →
      (applySubgroupMode (.specific chosen) t).1
          = t.filter (fun r => chosen.contains (Subgroup_clean r.subgroup)) ∧
      (applySubgroupMode (.specific chosen) t).2 = false) := by
  refine ⟨rfl, rfl, ?_⟩
  intro chosen hc
  have h : chosen.isEmpty = false := by simpa [List.isEmpty_iff] using hc
  rw [applySubgroupMode, h]
  exact ⟨rfl, rfl⟩

/-- Witness for C3 at a concrete input. -/
theorem C3_witness :
    (applySubgroupMode (.specific ["Boys"]) [baseRow]).1
        = [baseRow].filter (fun r => ["Boys"].contains (Subgroup_clean r.subgroup)) :=
  ((C3_specific_empty_warns [baseRow]).2.2 ["Boys"] (by decide)).1

/-! ## C4 -/

/-- Length of the two closure partitions sums to the table length. -/
theorem closure_length (t : List Row) :
    (valid_closure t).length + (invalid_closure t).length = t.length := by
  induction t with
  | nil => rfl
  | cons a l ih =>
    by_cases h : a.closureSum = some 1440 <;>
      simp [valid_closure, invalid_closure, List.filter_cons, h] at ih ⊢ <;>
      omega

/-- C4 (confirmed): every filtered row lands in exactly one of the valid
(closure sum equal to 1440) and invalid (different or missing closure sum)
partitions, the partition sizes sum to the filtered row count, and the check
hands the filtered table on unchanged. -/
theorem C4_closure_partition (t : List Row) :
    (valid_closure t).length + (invalid_closure t).length = t.length ∧
    (∀ r ∈ t, (r ∈ valid_closure t ∧ r ∉ invalid_closure t)
        ∨ (r ∈ invalid_closure t ∧ r ∉ valid_closure t)) ∧
    (∀ r, r ∈ valid_closure t ↔ r ∈ t ∧ r.closureSum = some 1440) ∧
    (∀ r, r ∈ invalid_closure t ↔ r ∈ t ∧ r.closureSum ≠ some 1440) ∧
    (closureCheck t).2.2 = t := by
  have hv : ∀ r, r ∈ valid_closure t ↔ r ∈ t ∧ r.closureSum = some 1440 := by
    intro r
    simp [valid_closure, List.mem_filter]
  have hi : ∀ r, r ∈ invalid_closure t ↔ r ∈ t ∧ r.closureSum ≠ some 1440 := by
    intro r
    simp [invalid_closure, List.mem_filter]
  refine ⟨closure_length t, ?_, hv, hi, rfl⟩
  intro r hr
  by_cases h : r.closureSum = some 1440
  · exact Or.inl ⟨(hv r).mpr ⟨hr, h⟩, fun hmem => ((hi r).mp hmem).2 h⟩
  · exact Or.inr ⟨(hi r).mpr ⟨hr, h⟩, fun hmem => h ((hv r).mp hmem).2⟩

/-- Witness for C4 at a concrete input. -/
theorem C4_witness :
    (valid_closure [baseRow]).length + (invalid_closure [baseRow]).length
        = ([baseRow] : List Row).length :=
  (C4_closure_partition [baseRow]).1

/-! ## C5 -/

/-- Membership among the rows that reach the pivot. -/
theorem mem_pivotRows (t : List Row) (r : Row) :
    r ∈ pivotRows t ↔ r ∈ t ∧ r.minutes ≠ none ∧ keyComplete r = true := by
  simp [pivotRows, List.mem_filter, and_assoc]

/-- Membership in the key list of one wide table. -/
theorem mem_wideKeys (t : List Row) (k : WideKey) :
    k ∈ wideKeys t ↔ ∃ r, r ∈ pivotRows t ∧ keyOf r = k := by
  simp [wideKeys, List.mem_dedup, List.mem_map]

/-- Every key of the merged table is a key of one of the two sides. -/
theorem studyWide_keys_sub (arith geo : List Row) (k : WideKey) :
    k ∈ (studyWide arith geo).keys → k ∈ wideKeys arith ∨ k ∈ wideKeys geo := by
  rw [studyWide]
  by_cases hA : (pivotRows arith).isEmpty <;> by_cases hG : (pivotRows geo).isEmpty <;>
    simp [hA, hG, mergeOuterKeys, List.mem_append, List.mem_filter] <;>
    tauto

/-- The Geometric-only study-subgroup row of the C5 scenario. -/
def rowGeoOnly : Row :=
  { baseRow with
    studyID := "S2", studyDisplay := "Study 2",
    meanType := "Geometric", minutes := some 470 }

/-- The Arithmetic-only side of the C5 scenario. -/
def tA5 : List Row := [baseRow]

/-- The Geometric-only side of the C5 scenario. -/
def tG5 : List Row := [rowGeoOnly]

/-- C5 counterexample: when the Geometric subset is empty, the merge branch of
app.py keeps only `wide_A`, so an Arithmetic-only key appears as a row but the
Geometric behavior columns are absent from the merged table entirely, not
present-but-empty; the claim is false at this input. -/
theorem C5_counterexample :
    keyOf baseRow ∈ (studyWide [baseRow] []).keys ∧
    (studyWide [baseRow] []).gCols = [] := by
  constructor <;> decide

/-- C5 (corrected): provided both mean-type subsets are non-empty after the
drops, a key present on one side only still appears as a row of the outer
merge, with the other mean-type behavior columns present and all of its cells
in them empty; when one subset is empty the merged table is just the other
wide table and the missing mean-type columns are absent.  The concrete
two-study scenario reshapes to exactly two rows. -/
theorem C5_outer_join (arith geo : List Row) (k : WideKey)
    (hA : pivotRows arith ≠ []) (hG : pivotRows geo ≠ []) :
    (k ∈ wideKeys arith → k ∉ wideKeys geo →
        k ∈ (studyWide arith geo).keys ∧ (studyWide arith geo).gCols ≠ [] ∧
        ∀ b, cellMean geo k b = none) ∧
    (k ∈ wideKeys geo → k ∉ wideKeys arith →
        k ∈ (studyWide arith geo).keys ∧ (studyWide arith geo).aCols ≠ [] ∧
        ∀ b, cellMean arith k b = none) ∧
    (studyWide tA5 tG5).keys.length = 2 := by
  have hA' : (pivotRows arith).isEmpty = false := by
    simpa [List.isEmpty_iff] using hA
  have hG' : (pivotRows geo).isEmpty = false := by
    simpa [List.isEmpty_iff] using hG
  have hsw : studyWide arith geo =
      { keys := mergeOuterKeys (wideKeys arith) (wideKeys geo),
        aCols := wideCols arith, gCols := wideCols geo } := by
    rw [studyWide]
    simp [hA', hG']
  have hcols : ∀ u : List Row, pivotRows u ≠ [] → wideCols u ≠ [] := by
    intro u hu
    simp only [wideCols, ne_eq, List.dedup_eq_nil, List.map_eq_nil_iff]
    exact hu
  have hcell : ∀ (u : List Row), k ∉ wideKeys u → ∀ b, cellMean u k b = none := by
    intro u hk b
    have hfil : ((pivotRows u).filter fun r => keyOf r == k && r.behavior == b) = [] := by
      rw [List.filter_eq_nil_iff]
      intro r hr
      simp only [Bool.and_eq_true, beq_iff_eq, not_and]
      intro hkey _
      apply hk
      rw [← hkey]
      exact List.mem_dedup.mpr (List.mem_map.mpr ⟨r, hr, rfl⟩)
    rw [cellMean]
    simp [hfil]
  refine ⟨?_, ?_, by decide⟩
  · intro hkA hkG
    refine ⟨?_, hsw ▸ hcols geo hG, hcell geo hkG⟩
    rw [hsw]
    exact List.mem_append_left _ hkA
  · intro hkG hkA
    refine ⟨?_, hsw ▸ hcols arith hA, hcell arith hkA⟩
    rw [hsw]
    refine List.mem_append_right _ (List.mem_filter.mpr ⟨hkG, ?_⟩)
    simp [hkA]

/-- Witness for C5 at the concrete scenario input. -/
theorem C5_witness :
    keyOf baseRow ∈ (studyWide tA5 tG5).keys :=
  (((C5_outer_join tA5 tG5 (keyOf baseRow) (by decide) (by decide)).1
    (by decide) (by decide))).1

/-! ## C6 -/

/-- A row whose age group is missing. -/
def rowAgeNone : Row := { baseRow with ageGroup := none }

/-- C6 counterexample: a null age group is not mapped to the "Unknown"
category by either file — app.py leaves it null, App.py removes the row — and
the App.py ordering does not even contain "Unknown". -/
theorem C6_counterexample :
    categoricalAge none = none ∧
    dropUnknownAge [rowAgeNone] = [] ∧
    "Unknown" ∉ ageCatsApp :=
  ⟨rfl, by decide, by decide⟩

/-- C6 (corrected): no null age group becomes "Unknown".  In app.py the categorical
normalization yields "Unknown" only for rows already labelled "Unknown" (and
maps out-of-category values and nulls to null), with the four-element ordering
attached; App.py instead keeps exactly the rows whose age group is one of
{Children, Adolescents, Adult}, dropping null and "Unknown" rows, and its
ordering excludes "Unknown". -/
theorem C6_age_normalization (t : List Row) (g : Option String) :
    (categoricalAge g = some "Unknown" ↔ g = some "Unknown") ∧
    (∀ r, r ∈ dropUnknownAge t ↔
        r ∈ t ∧ ∃ a, r.ageGroup = some a ∧ a ∈ ageCatsApp) ∧
    "Unknown" ∈ ageCatsLower ∧ "Unknown" ∉ ageCatsApp := by
  refine ⟨?_, ?_, by decide, by decide⟩
  · cases g with
    | none => simp [categoricalAge]
    | some v =>
      by_cases hv : ageCatsLower.contains v = true
      · rw [categoricalAge, if_pos hv]
      · rw [categoricalAge, if_neg hv]
        have hvne : v ≠ "Unknown" := by
          intro h
          exact hv (by rw [h]; decide)
        simp [hvne]
  · intro r
    simp [dropUnknownAge, List.mem_filter, optAny_iff]

/-- Witness for C6 at a concrete input. -/
theorem C6_witness :
    rowAgeNone ∈ dropUnknownAge [rowAgeNone] ↔
      rowAgeNone ∈ [rowAgeNone] ∧
      ∃ a, rowAgeNone.ageGroup = some a ∧ a ∈ ageCatsApp :=
  (C6_age_normalization [rowAgeNone] none).2.1 rowAgeNone

/-! ## C8 -/

/-- C8 (confirmed): the pipeline is a pure function of the input table and the
filter selection, so two runs on identical inputs produce identical output
tables — same rows in the same order in every produced table. -/
theorem C8_pipeline_deterministic (t : List Row) (s : Selection) (o₁ o₂ : Outputs)
    (h₁ : o₁ = runPipeline t s) (h₂ : o₂ = runPipeline t s) : o₁ = o₂ :=
  h₁.trans h₂.symm

/-- Witness for C8: two runs on a concrete table and selection coincide. -/
theorem C8_witness :
    runPipeline [baseRow] ⟨[], [], [], [], []⟩
      = runPipeline [baseRow] ⟨[], [], [], [], []⟩ :=
  C8_pipeline_deterministic [baseRow] ⟨[], [], [], [], []⟩ _ _ rfl rfl

/-! ## C9 -/

/-- C9 (confirmed): `make_wide` drops missing-Minutes rows before pivoting, so
a key all of whose Minutes values are missing within one mean-type subset
produces no row of that wide table, and a key absent from both subsets is
absent from the merged study-level summary. -/
theorem C9_all_missing_key_absent (arith geo : List Row) (k : WideKey)
    (hA : ∀ r ∈ arith, keyOf r = k → r.minutes = none)
    (hG : ∀ r ∈ geo, keyOf r = k → r.minutes = none) :
    k ∉ wideKeys arith ∧ k ∉ wideKeys geo ∧ k ∉ (studyWide arith geo).keys := by
  have habs : ∀ (u : List Row), (∀ r ∈ u, keyOf r = k → r.minutes = none) →
      k ∉ wideKeys u := by
    intro u hu hk
    rcases (mem_wideKeys u k).mp hk with ⟨r, hrp, hrk⟩
    rcases (mem_pivotRows u r).mp hrp with ⟨hru, hmin, _⟩
    exact hmin (hu r hru hrk)
  refine ⟨habs arith hA, habs geo hG, fun hk => ?_⟩
  rcases studyWide_keys_sub arith geo k hk with h | h
  · exact habs arith hA h
  · exact habs geo hG h

/-- A row whose Minutes value is missing. -/
def rowNoMin : Row := { baseRow with minutes := none }

/-- Witness for C9 at a concrete input. -/
theorem C9_witness :
    keyOf rowNoMin ∉ wideKeys [rowNoMin] :=
  (C9_all_missing_key_absent [rowNoMin] [] (keyOf rowNoMin)
    (by decide) (by decide)).1

/-! ## C10 -/

/-- C10 (confirmed): the App.py behavior-summary pivots are indexed on the raw
`Subgroup` column, so every row whose raw subgroup is null contributes to no
key of the merged wide table — removing such rows leaves `wide_all` unchanged
— even though under the `Full sample only` mode exactly these rows (whose
normalized subgroup is "Full") are kept by the subgroup filter. -/
theorem C10_null_subgroup_omitted (t : List Row) :
    wide_all_keys t = wide_all_keys (t.filter fun r => !(r.subgroup == none)) ∧
    (∀ r ∈ t, r.subgroup = none → r ∈ (applySubgroupMode .fullOnly t).1) := by
  constructor
  · have key_eq : ∀ mt, wideAllKeys mt (t.filter fun r => !(r.subgroup == none))
        = wideAllKeys mt t := by
      intro mt
      rw [wideAllKeys, wideAllKeys, List.filter_filter]
      congr 2
      apply List.filter_congr
      intro r _
      by_cases h : r.subgroup = none <;> simp [h]
    rw [wide_all_keys, wide_all_keys, key_eq, key_eq]
  · intro r hr hnone
    rw [applySubgroupMode]
    refine List.mem_filter.mpr ⟨hr, ?_⟩
    rw [hnone]
    rfl

/-- A row whose raw subgroup is null. -/
def rowSubNone : Row := { baseRow with subgroup := none }

/-- Witness for C10 at a concrete input. -/
theorem C10_witness :
    rowSubNone ∈ (applySubgroupMode .fullOnly [rowSubNone]).1 :=
  (C10_null_subgroup_omitted [rowSubNone]).2 rowSubNone (by decide) rfl

end Dashboard
